import Mathlib

/-!
Verification of the offline-synchronization engine of the poc-kyc repository.

The engine lives in four modules:
  - src/src/lib/offline/indexeddb.ts       (local store: room replicas, sync queue, metadata)
  - src/src/lib/offline/offline-manager.ts (offline coordinator: local edits, pull-phase merge)
  - the BackgroundSyncService class        (push phase, per-item retry/backoff)
  - the SyncService class                  (alternative orchestrator with batch push)

The embedding below is a direct translation of those modules:
  - ISO timestamp strings are modelled as `Nat` (the code always compares them
    through `new Date(x).getTime()`, a number);
  - the IndexedDB object store `roomAssignments` (keyPath `id`) is modelled as the
    keyed map `Nat → Option RoomAssignmentLocal`; `syncFromServer` reads all
    records and indexes them by id, which on an id-keyed store reconstitutes
    exactly this map;
  - the `syncQueue` object store (keyPath `id`, a uuid string) is modelled as a
    `List SyncQueueItem`; reading through an IndexedDB index returns the matching
    records ordered by (index key, primary key), which for the single-key query
    `index('syncStatus').getAll('pending')` means: the pending records ordered by
    their `id` string — modelled by sorting the filtered list by `id`;
  - network calls are suspended: functions that perform a `fetch` take the
    response (`Option RoomAssignment`, `none` = network/HTTP failure) as an
    argument.
-/

namespace OfflineSync

/-- `syncStatus` of a queue item (src/src/lib/offline/indexeddb.ts, `SyncQueueItem`). -/
inductive SyncStatus where
  | pending
  | syncing
  | synced
  | failed
deriving Repr, DecidableEq

/-- `changeType` of a queue item (src/src/lib/offline/indexeddb.ts, `SyncQueueItem`). -/
inductive ChangeType where
  | update
  | bulk_update
deriving Repr, DecidableEq

/-- The remote room-assignment record (`RoomAssignment` in src/src/types/room.ts):
the shape the server returns, without local bookkeeping. -/
structure RoomAssignment where
  id : Nat
  roomNumber : String
  status : String
  priority : String
  occupancy : String
  checkoutTime : Option String := none
  estimatedTime : Option String := none
  notes : Option String := none
  guestCheckout : Option String := none
  nextCheckin : Option String := none
  guestName : Option String := none
  occupancyStatus : Option String := none
  bedType : Option String := none
  serviceStatus : String
  assignedTo : Option String := none
  createdAt : Nat
  updatedAt : Nat
deriving Repr, DecidableEq

/-- The local replica (`RoomAssignmentLocal` in src/src/lib/offline/indexeddb.ts):
the remote fields plus the bookkeeping fields `lastSyncedAt`, `isDirty`, `version`. -/
structure RoomAssignmentLocal where
  id : Nat
  roomNumber : String
  status : String
  priority : String
  occupancy : String
  checkoutTime : Option String := none
  estimatedTime : Option String := none
  notes : Option String := none
  guestCheckout : Option String := none
  nextCheckin : Option String := none
  guestName : Option String := none
  occupancyStatus : Option String := none
  bedType : Option String := none
  serviceStatus : String
  assignedTo : Option String := none
  createdAt : Nat
  updatedAt : Nat
  lastSyncedAt : Option Nat := none
  isDirty : Bool
  version : Option Nat := none
deriving Repr, DecidableEq

/-- The field-level delta of a local edit (`UpdateRoomAssignmentData` in
src/src/types/room.ts: every semantic field optional; `roomNumber`, `id` and the
timestamps are not part of the type). `none` = key absent, so an object spread
keeps the current value. -/
structure UpdateRoomAssignmentData where
  status : Option String := none
  priority : Option String := none
  occupancy : Option String := none
  checkoutTime : Option String := none
  estimatedTime : Option String := none
  notes : Option String := none
  guestCheckout : Option String := none
  nextCheckin : Option String := none
  guestName : Option String := none
  occupancyStatus : Option String := none
  bedType : Option String := none
  serviceStatus : Option String := none
  assignedTo : Option String := none
deriving Repr, DecidableEq

/-- The `data` payload of a queue item (`Record<string, any>` in the source).
In this codebase it always holds an update delta, possibly together with the
bookkeeping keys that the push path strips before transmission
(`version` is added by `updateRoom`; the other keys are listed by the
destructuring patterns in the two `syncRoomUpdate` implementations). -/
structure SyncPayload where
  delta : UpdateRoomAssignmentData
  version : Option Nat := none
  isDirty : Option Bool := none
  lastSyncedAt : Option Nat := none
  id : Option Nat := none
  createdAt : Option Nat := none
  updatedAt : Option Nat := none
deriving Repr, DecidableEq

/-- A durable queue entry (`SyncQueueItem` in src/src/lib/offline/indexeddb.ts). -/
structure SyncQueueItem where
  id : String
  roomId : Nat
  changeType : ChangeType
  data : SyncPayload
  syncStatus : SyncStatus
  retryCount : Nat
  createdAt : Nat
  lastAttemptAt : Option Nat := none
  error : Option String := none
deriving Repr, DecidableEq

/-- Per-item outcome reported by the background sync service
(`SyncResult` in the BackgroundSyncService module). -/
structure SyncResult where
  itemId : String
  success : Bool
  error : Option String := none
deriving Repr, DecidableEq

/-- The `roomAssignments` object store (keyPath `id`). -/
def RoomStore := Nat → Option RoomAssignmentLocal

/-- `store.put(room)` on the id-keyed object store: upsert under `room.id`. -/
def putRoom (store : RoomStore) (room : RoomAssignmentLocal) : RoomStore :=
  fun i => if i = room.id then some room else store i

/-- `convertToLocal` (src/src/lib/offline/offline-manager.ts, lines 103-133):
copies the remote fields and stamps `lastSyncedAt = now`, `isDirty = false`.
The JS object carries no `version` key, so `version` is absent. -/
def convertToLocal (room : RoomAssignment) (now : Nat) : RoomAssignmentLocal :=
  { id := room.id
    roomNumber := room.roomNumber
    status := room.status
    priority := room.priority
    occupancy := room.occupancy
    checkoutTime := room.checkoutTime
    estimatedTime := room.estimatedTime
    notes := room.notes
    guestCheckout := room.guestCheckout
    nextCheckin := room.nextCheckin
    guestName := room.guestName
    occupancyStatus := room.occupancyStatus
    bedType := room.bedType
    serviceStatus := room.serviceStatus
    assignedTo := room.assignedTo
    createdAt := room.createdAt
    updatedAt := room.updatedAt
    lastSyncedAt := some now
    isDirty := false
    version := none }

/-- The loop body of `syncFromServer` (offline-manager.ts, lines 322-336): decide,
from the snapshot of local rooms taken at the start of the pass, whether the
server record is appended to `roomsToSave`.  A missing local room is inserted as
clean; a clean local room is overwritten from the server (with `lastSyncedAt`
re-stamped, line 331); a dirty local room is skipped. -/
def buildStep (now : Nat) (store : RoomStore) (acc : List RoomAssignmentLocal)
    (serverRoom : RoomAssignment) : List RoomAssignmentLocal :=
  match store serverRoom.id with
  | none => acc ++ [convertToLocal serverRoom now]
  | some localRoom =>
    if localRoom.isDirty then acc
    else acc ++ [{ convertToLocal serverRoom now with lastSyncedAt := some now }]

/-- The `roomsToSave` list accumulated by `syncFromServer` (offline-manager.ts,
lines 319-336). -/
def roomsToSave (serverRooms : List RoomAssignment) (now : Nat) (store : RoomStore) :
    List RoomAssignmentLocal :=
  serverRooms.foldl (buildStep now store) []

/-- `syncFromServer` (offline-manager.ts, lines 305-350), the pull-phase merge:
index the existing local rooms by id, walk the server records against that
snapshot, then persist `roomsToSave` with `saveMultipleRoomAssignments`
(sequential `put`s, so a later entry for the same id wins). -/
def syncFromServer (serverRooms : List RoomAssignment) (now : Nat) (store : RoomStore) :
    RoomStore :=
  (roomsToSave serverRooms now store).foldl putRoom store

/-- `orD a b`: the first option if present, otherwise the second (helper used to
state how sequential keyed `put`s resolve). -/
def orD {α : Type} (a b : Option α) : Option α :=
  match a with
  | some x => some x
  | none => b

/-- The last element of `l` whose key is `i` (helper: the record that a sequence
of keyed `put`s leaves under key `i`). -/
def lastWithKey {α : Type} (key : α → Nat) (i : Nat) (l : List α) : Option α :=
  l.foldl (fun acc x => if key x = i then some x else acc) none

/-- What the pull-phase pass contributes under key `i`: nothing if the local room
is dirty, otherwise the clean conversion of the last server record with that id. -/
def contribution (now : Nat) (store : RoomStore) (i : Nat)
    (serverRooms : List RoomAssignment) : Option RoomAssignmentLocal :=
  match store i with
  | none => (lastWithKey (fun r => r.id) i serverRooms).map (fun sr => convertToLocal sr now)
  | some lr =>
    if lr.isDirty then none
    else (lastWithKey (fun r => r.id) i serverRooms).map (fun sr => convertToLocal sr now)

/-- Object-spread of one optional key: a present key overwrites, an absent key
keeps the current value. -/
def overwrite (new old : Option String) : Option String :=
  match new with
  | some v => some v
  | none => old

/-- `{ ...currentRoom, ...updateData }` (offline-manager.ts, line 209-211): merge
the delta onto the replica, field by field. -/
def applyDelta (r : RoomAssignmentLocal) (d : UpdateRoomAssignmentData) :
    RoomAssignmentLocal :=
  { r with
    status := d.status.getD r.status
    priority := d.priority.getD r.priority
    occupancy := d.occupancy.getD r.occupancy
    checkoutTime := overwrite d.checkoutTime r.checkoutTime
    estimatedTime := overwrite d.estimatedTime r.estimatedTime
    notes := overwrite d.notes r.notes
    guestCheckout := overwrite d.guestCheckout r.guestCheckout
    nextCheckin := overwrite d.nextCheckin r.nextCheckin
    guestName := overwrite d.guestName r.guestName
    occupancyStatus := overwrite d.occupancyStatus r.occupancyStatus
    bedType := overwrite d.bedType r.bedType
    serviceStatus := d.serviceStatus.getD r.serviceStatus
    assignedTo := overwrite d.assignedTo r.assignedTo }

/-- The error thrown by `updateRoom` when the id is absent locally
(offline-manager.ts, line 204). -/
def roomNotFound : String := "Room not found in local storage"

/-- `updateRoom` (offline-manager.ts, lines 196-244): the optimistic local edit.
Fails when no replica exists for `roomId`; otherwise merges the delta, stamps
`updatedAt = now`, sets `isDirty`, increments `version` (absent counts as 0),
persists the replica and appends one pending `update` queue item whose payload is
the delta plus the new version.  The TS function returns
`convertFromLocal(updatedRoom)`; the persisted replica is returned here. -/
def updateRoom (roomId : Nat) (updateData : UpdateRoomAssignmentData) (now : Nat)
    (uuid : String) (rooms : RoomStore) (queue : List SyncQueueItem) :
    Except String (RoomStore × List SyncQueueItem × RoomAssignmentLocal) :=
  match rooms roomId with
  | none => Except.error roomNotFound
  | some currentRoom =>
    let updatedRoom : RoomAssignmentLocal :=
      { applyDelta currentRoom updateData with
        updatedAt := now
        isDirty := true
        version := some (currentRoom.version.getD 0 + 1) }
    let item : SyncQueueItem :=
      { id := uuid
        roomId := roomId
        changeType := ChangeType.update
        data := { delta := updateData, version := updatedRoom.version }
        syncStatus := SyncStatus.pending
        retryCount := 0
        createdAt := now }
    Except.ok (putRoom rooms updatedRoom, queue ++ [item], updatedRoom)

/-- `indexedDBManager.updateSyncQueueItem` (indexeddb.ts, lines 201-211):
`put` on the id-keyed queue store replaces the record with the same id. -/
def updateSyncQueueItem (queue : List SyncQueueItem) (item : SyncQueueItem) :
    List SyncQueueItem :=
  queue.map fun x => if x.id = item.id then item else x

/-- `indexedDBManager.removeSyncQueueItem` (indexeddb.ts, lines 213-223). -/
def removeSyncQueueItem (queue : List SyncQueueItem) (id : String) :
    List SyncQueueItem :=
  queue.filter fun x => x.id ≠ id

/-- IndexedDB compares string keys by their code units: lexicographic order on
the character sequences. -/
def keyLE : List Char → List Char → Bool
  | [], _ => true
  | _ :: _, [] => false
  | a :: as, b :: bs =>
    if a.toNat < b.toNat then true
    else if b.toNat < a.toNat then false
    else keyLE as bs

/-- The queue-store key order used by `getPendingSyncItems`: code-unit order of
the primary key `id`. -/
def queueKeyLE (a b : SyncQueueItem) : Prop := keyLE a.id.data b.id.data = true

instance : DecidableRel queueKeyLE := fun a b =>
  inferInstanceAs (Decidable (keyLE a.id.data b.id.data = true))

instance : IsTotal SyncQueueItem queueKeyLE := ⟨by
  intro a b
  show keyLE a.id.data b.id.data = true ∨ keyLE b.id.data a.id.data = true
  generalize a.id.data = x
  generalize b.id.data = y
  induction x generalizing y with
  | nil => left; rfl
  | cons c cs ih =>
    cases y with
    | nil => right; rfl
    | cons d ds =>
      simp only [keyLE]
      rcases Nat.lt_trichotomy c.toNat d.toNat with h | h | h
      · left; simp [h]
      · rcases ih ds with h2 | h2
        · left; simp [h, h2]
        · right; simp [h, h2]
      · right; simp [h]⟩

instance : IsTrans SyncQueueItem queueKeyLE := ⟨by
  intro a b c hab hbc
  revert hab hbc
  show keyLE a.id.data b.id.data = true → keyLE b.id.data c.id.data = true →
    keyLE a.id.data c.id.data = true
  generalize a.id.data = x
  generalize b.id.data = y
  generalize c.id.data = z
  induction x generalizing y z with
  | nil => intro _ _; rfl
  | cons p ps ih =>
    intro hxy hyz
    cases y with
    | nil => simp [keyLE] at hxy
    | cons q qs =>
      cases z with
      | nil => simp [keyLE] at hyz
      | cons r rs =>
        simp only [keyLE] at hxy hyz ⊢
        by_cases h1 : p.toNat < q.toNat
        · by_cases h2 : q.toNat < r.toNat
          · simp [show p.toNat < r.toNat by omega]
          · by_cases h3 : r.toNat < q.toNat
            · simp [h2, h3] at hyz
            · simp [show p.toNat < r.toNat by omega]
        · by_cases h1' : q.toNat < p.toNat
          · simp [h1, h1'] at hxy
          · simp [h1, h1'] at hxy
            by_cases h2 : q.toNat < r.toNat
            · simp [show p.toNat < r.toNat by omega]
            · by_cases h3 : r.toNat < q.toNat
              · simp [h2, h3] at hyz
              · simp [h2, h3] at hyz
                have hpr : ¬ p.toNat < r.toNat := by omega
                have hrp : ¬ r.toNat < p.toNat := by omega
                simp [hpr, hrp]
                exact ih qs rs hxy hyz⟩

/-- `indexedDBManager.getPendingSyncItems` (indexeddb.ts, lines 225-236):
`index('syncStatus').getAll('pending')`.  An IndexedDB index stores its records
sorted by (index key, primary key), so the single-key query returns the pending
records ordered by their primary key `id` — not by `createdAt`. -/
def getPendingSyncItems (queue : List SyncQueueItem) : List SyncQueueItem :=
  List.insertionSort queueKeyLE (queue.filter fun x => x.syncStatus = SyncStatus.pending)

namespace BackgroundSyncService

/-- The progressive retry delay schedule (BackgroundSyncService, line 485). -/
def retryDelays : List Nat := [1000, 5000, 15000, 30000, 60000]

/-- The mutable service flags (BackgroundSyncService, lines 481-482). -/
structure OrchestratorState where
  isOnline : Bool
  syncInProgress : Bool
deriving Repr, DecidableEq

/-- The destructuring at line 665:
`const { version, id, isDirty, lastSyncedAt, createdAt, updatedAt, ...apiData } = item.data` —
the request body sent by `BackgroundSyncService.syncRoomUpdate` keeps only the
semantic delta. -/
def apiData (p : SyncPayload) : SyncPayload :=
  { delta := p.delta }

/-- `{ ...localRoom, ...updatedRoom, isDirty: false, lastSyncedAt: now }`
(lines 689-694): every field of the echoed server record overwrites the local
one; `version` is not part of the echo and is kept. -/
def mergeEcho (localRoom : RoomAssignmentLocal) (echo : RoomAssignment) (now : Nat) :
    RoomAssignmentLocal :=
  { id := echo.id
    roomNumber := echo.roomNumber
    status := echo.status
    priority := echo.priority
    occupancy := echo.occupancy
    checkoutTime := echo.checkoutTime
    estimatedTime := echo.estimatedTime
    notes := echo.notes
    guestCheckout := echo.guestCheckout
    nextCheckin := echo.nextCheckin
    guestName := echo.guestName
    occupancyStatus := echo.occupancyStatus
    bedType := echo.bedType
    serviceStatus := echo.serviceStatus
    assignedTo := echo.assignedTo
    createdAt := echo.createdAt
    updatedAt := echo.updatedAt
    lastSyncedAt := some now
    isDirty := false
    version := localRoom.version }

/-- `BackgroundSyncService.syncRoomUpdate` (lines 662-704).  `response` is the
outcome of the `PUT /api/room-assignments/{item.roomId}` call (`none` = network
error or non-2xx, both end in the catch that returns `false`).  On success the
echoed record is applied to the local replica only when
`serverUpdatedAt >= localUpdatedAt` (line 688). -/
def syncRoomUpdate (item : SyncQueueItem) (rooms : RoomStore)
    (response : Option RoomAssignment) (now : Nat) : RoomStore × Bool :=
  match response with
  | none => (rooms, false)
  | some updatedRoom =>
    match rooms item.roomId with
    | none => (rooms, true)
    | some localRoom =>
      if localRoom.updatedAt ≤ updatedRoom.updatedAt then
        (putRoom rooms (mergeEcho localRoom updatedRoom now), true)
      else
        (rooms, true)

/-- `BackgroundSyncService.syncBulkUpdate` (lines 706-725): `PUT` the payload to
the bulk endpoint; the response body is ignored. -/
def syncBulkUpdate (rooms : RoomStore) (response : Option RoomAssignment) :
    RoomStore × Bool :=
  (rooms, response.isSome)

/-- The `switch (item.changeType)` dispatch inside `syncItem` (lines 608-617). -/
def dispatch (item : SyncQueueItem) (rooms : RoomStore)
    (response : Option RoomAssignment) (now : Nat) : RoomStore × Bool :=
  match item.changeType with
  | ChangeType.update => syncRoomUpdate item rooms response now
  | ChangeType.bulk_update => syncBulkUpdate rooms response

/-- `BackgroundSyncService.syncItem` (lines 598-660).  The item is first marked
`syncing` with `lastAttemptAt` stamped and persisted; on success the item is
removed from the queue and the room replica is rewritten with `isDirty = false`
and `lastSyncedAt = now`; on failure `retryCount` is incremented and the item
goes back to `pending` while `retryCount < retryDelays.length`, else it stays
`failed`. -/
def syncItem (item : SyncQueueItem) (rooms : RoomStore) (queue : List SyncQueueItem)
    (response : Option RoomAssignment) (now : Nat) :
    RoomStore × List SyncQueueItem × SyncResult :=
  let item1 : SyncQueueItem :=
    { item with syncStatus := SyncStatus.syncing, lastAttemptAt := some now }
  let queue1 := updateSyncQueueItem queue item1
  let step := dispatch item rooms response now
  if step.2 then
    let queue2 := removeSyncQueueItem queue1 item.id
    let rooms2 :=
      match step.1 item.roomId with
      | some room => putRoom step.1 { room with isDirty := false, lastSyncedAt := some now }
      | none => step.1
    (rooms2, queue2, { itemId := item.id, success := true, error := none })
  else
    let item2 : SyncQueueItem :=
      { item1 with
        retryCount := item.retryCount + 1
        syncStatus :=
          if item.retryCount + 1 < retryDelays.length then SyncStatus.pending
          else SyncStatus.failed
        error := some "Sync operation failed" }
    (rooms, updateSyncQueueItem queue1 item2,
      { itemId := item.id, success := false, error := some "Sync operation failed" })

/-- One step of the drain loop in `syncPendingItems` (lines 564-583). -/
def syncStep (responder : SyncQueueItem → Option RoomAssignment) (now : Nat)
    (acc : RoomStore × List SyncQueueItem × List SyncResult) (item : SyncQueueItem) :
    RoomStore × List SyncQueueItem × List SyncResult :=
  let r := syncItem item acc.1 acc.2.1 (responder item) now
  (r.1, r.2.1, acc.2.2 ++ [r.2.2])

/-- `BackgroundSyncService.syncPendingItems` (lines 550-596): the guarded sync
pass.  A re-entrant or offline trigger returns `[]` immediately without touching
the stores; otherwise the pending items are read once and drained in order. -/
def syncPendingItems (svc : OrchestratorState) (rooms : RoomStore)
    (queue : List SyncQueueItem) (responder : SyncQueueItem → Option RoomAssignment)
    (now : Nat) : RoomStore × List SyncQueueItem × List SyncResult :=
  if svc.syncInProgress || !svc.isOnline then (rooms, queue, [])
  else (getPendingSyncItems queue).foldl (syncStep responder now) (rooms, queue, [])

end BackgroundSyncService

namespace SyncService

/-- The destructuring at src/src/components/providers.tsx lines 319-324:
`const { version, isDirty, lastSyncedAt, ...cleanData } = item.data` — the
request body sent by `SyncService.syncRoomUpdate`. -/
def cleanData (p : SyncPayload) : SyncPayload :=
  { p with version := none, isDirty := none, lastSyncedAt := none }

end SyncService

/-- The net effect of one failed delivery attempt on a queue item: the catch
branch of `BackgroundSyncService.syncItem` (lines 636-652), composed with the
initial `syncing` stamp of the same call. -/
def failedAttempt (item : SyncQueueItem) (now : Nat) : SyncQueueItem :=
  { item with
    retryCount := item.retryCount + 1
    syncStatus :=
      if item.retryCount + 1 < BackgroundSyncService.retryDelays.length then SyncStatus.pending
      else SyncStatus.failed
    error := some "Sync operation failed"
    lastAttemptAt := some now }

/-- The `SyncResult` reported for a failed attempt. -/
def failResult (item : SyncQueueItem) : SyncResult :=
  { itemId := item.id, success := false, error := some "Sync operation failed" }

/-- A remote authority on which every delivery attempt fails. -/
def alwaysFail : SyncQueueItem → Option RoomAssignment := fun _ => none

/-- One sync pass in which every delivery attempt fails. -/
def failingPass (rooms : RoomStore) (queue : List SyncQueueItem) (now : Nat) :
    RoomStore × List SyncQueueItem × List SyncResult :=
  BackgroundSyncService.syncPendingItems
    { isOnline := true, syncInProgress := false } rooms queue alwaysFail now

/-- `n` consecutive failing passes, accumulating the ids of the attempted items. -/
def failingPasses (rooms : RoomStore) (queue : List SyncQueueItem) (now : Nat) :
    Nat → RoomStore × List SyncQueueItem × List String
  | 0 => (rooms, queue, [])
  | n + 1 =>
    let s := failingPasses rooms queue now n
    let p := failingPass s.1 s.2.1 now
    (p.1, p.2.1, s.2.2 ++ p.2.2.map (fun r => r.itemId))

/-- The ids attempted during pass `k` (0-based) of a run of failing passes. -/
def passLog (rooms : RoomStore) (queue : List SyncQueueItem) (now : Nat) (k : Nat) :
    List String :=
  let s := failingPasses rooms queue now k
  (failingPass s.1 s.2.1 now).2.2.map (fun r => r.itemId)

/-- What one failing pass does to a single stored queue entry: a pending entry
takes one failed attempt, any other entry is untouched. -/
def passEntry (now : Nat) (x : SyncQueueItem) : SyncQueueItem :=
  if x.syncStatus = SyncStatus.pending then failedAttempt x now else x

/-- `passEntry` iterated `n` times. -/
def passIter (now : Nat) : Nat → SyncQueueItem → SyncQueueItem
  | 0, x => x
  | n + 1, x => passEntry now (passIter now n x)

/-- The sequential effect on one stored entry of the per-item queue updates made
while draining the batch `P` with every attempt failing. -/
def applyFails (now : Nat) (P : List SyncQueueItem) (x : SyncQueueItem) : SyncQueueItem :=
  P.foldl (fun z y => if z.id = y.id then failedAttempt y now else z) x

/-- A concrete local replica for the tests below. -/
def mkLocal (i upd : Nat) (status : String) (dirty : Bool) : RoomAssignmentLocal :=
  { id := i, roomNumber := "101", status := status, priority := "High",
    occupancy := "vacant", serviceStatus := "Pending", createdAt := 0,
    updatedAt := upd, isDirty := dirty }

/-- A concrete remote record for the tests below. -/
def mkServer (i upd : Nat) (status : String) : RoomAssignment :=
  { id := i, roomNumber := "101", status := status, priority := "High",
    occupancy := "vacant", serviceStatus := "Pending", createdAt := 0,
    updatedAt := upd }

/-- A concrete pending queue item for the tests below. -/
def mkItem (id : String) (roomId created : Nat) : SyncQueueItem :=
  { id := id, roomId := roomId, changeType := ChangeType.update,
    data := { delta := {} }, syncStatus := SyncStatus.pending,
    retryCount := 0, createdAt := created }

/-- An empty room store. -/
def noRooms : RoomStore := fun _ => none

/-- C1 scenario: room 5 has a dirty local edit stamped at time 1. -/
def c1store : RoomStore :=
  fun i => if i = 5 then some (mkLocal 5 1 "dirty" true) else none

/-- C4 scenario: room 5 has a dirty local edit stamped at time 10. -/
def c4store : RoomStore :=
  fun i => if i = 5 then some (mkLocal 5 10 "dirty" true) else none

/-- C5/C8 scenario: room 7 holds a clean replica stamped at time 3. -/
def c5store : RoomStore :=
  fun i => if i = 7 then some (mkLocal 7 3 "clean" false) else none

/-- C9/C10 scenario: room 9 holds a dirty replica stamped at time 20. -/
def c9store : RoomStore :=
  fun i => if i = 9 then some (mkLocal 9 20 "clean" true) else none

/-- C5 witness delta: set the notes field. -/
def d5 : UpdateRoomAssignmentData := { notes := some "swept" }

/-- The replica that the C5 witness edit persists. -/
def upd5 : RoomAssignmentLocal :=
  { mkLocal 7 3 "clean" false with
    notes := some "swept", updatedAt := 12, isDirty := true, version := some 1 }

/-- The queue item that the C5 witness edit enqueues. -/
def item5q : SyncQueueItem :=
  { id := "u5", roomId := 7, changeType := ChangeType.update,
    data := { delta := d5, version := some 1 },
    syncStatus := SyncStatus.pending, retryCount := 0, createdAt := 12 }

/-- C8 witness delta: set the status field. -/
def d8 : UpdateRoomAssignmentData := { status := some "inspected" }

/-- The replica that the C8 witness edit persists. -/
def upd8 : RoomAssignmentLocal :=
  { mkLocal 7 3 "clean" false with
    status := "inspected", updatedAt := 11, isDirty := true, version := some 1 }

/-- The queue item that the C8 witness edit enqueues. -/
def item8 : SyncQueueItem :=
  { id := "u8", roomId := 7, changeType := ChangeType.update,
    data := { delta := d8, version := some 1 },
    syncStatus := SyncStatus.pending, retryCount := 0, createdAt := 11 }

end OfflineSync

namespace OfflineSync

@[simp] theorem orD_none {α : Type} (b : Option α) : orD none b = b := rfl

@[simp] theorem orD_some {α : Type} (a : α) (b : Option α) : orD (some a) b = some a := rfl

theorem orD_none_right {α : Type} (a : Option α) : orD a none = a := by
  cases a <;> rfl

theorem orD_assoc {α : Type} (a b c : Option α) : orD (orD a b) c = orD a (orD b c) := by
  cases a <;> rfl

theorem orD_map {α β : Type} (f : α → β) (a b : Option α) :
    (orD a b).map f = orD (a.map f) (b.map f) := by
  cases a <;> rfl

@[simp] theorem lastWithKey_nil {α : Type} (key : α → Nat) (i : Nat) :
    lastWithKey key i [] = none := rfl

theorem foldl_lastWith {α : Type} (key : α → Nat) (i : Nat) (l : List α) :
    ∀ acc, l.foldl (fun a x => if key x = i then some x else a) acc
      = orD (lastWithKey key i l) acc := by
  induction l with
  | nil => intro acc; rfl
  | cons x l ih =>
    intro acc
    have hc : lastWithKey key i (x :: l)
        = orD (lastWithKey key i l) (if key x = i then some x else none) := by
      have h0 : lastWithKey key i (x :: l)
          = List.foldl (fun a y => if key y = i then some y else a)
              (if key x = i then some x else none) l := rfl
      rw [h0, ih]
    rw [List.foldl_cons, ih, hc, orD_assoc]
    congr 1
    by_cases h : key x = i
    · simp [h]
    · simp [h]

theorem lastWithKey_cons {α : Type} (key : α → Nat) (i : Nat) (x : α) (l : List α) :
    lastWithKey key i (x :: l)
      = orD (lastWithKey key i l) (if key x = i then some x else none) := by
  have h0 : lastWithKey key i (x :: l)
      = List.foldl (fun a y => if key y = i then some y else a)
          (if key x = i then some x else none) l := rfl
  rw [h0, foldl_lastWith]

theorem lastWithKey_append_singleton {α : Type} (key : α → Nat) (i : Nat)
    (acc : List α) (x : α) :
    lastWithKey key i (acc ++ [x])
      = orD (if key x = i then some x else none) (lastWithKey key i acc) := by
  simp only [lastWithKey, List.foldl_append, List.foldl_cons, List.foldl_nil]
  by_cases h : key x = i <;> simp [h, lastWithKey]

theorem foldl_putRoom_apply (l : List RoomAssignmentLocal) :
    ∀ (store : RoomStore) (i : Nat),
      (l.foldl putRoom store) i = orD (lastWithKey (fun r => r.id) i l) (store i) := by
  induction l with
  | nil => intro store i; rfl
  | cons r l ih =>
    intro store i
    simp only [List.foldl_cons]
    rw [ih, lastWithKey_cons, orD_assoc]
    congr 1
    by_cases h : i = r.id
    · simp [putRoom, h]
    · have h2 : ¬ r.id = i := fun hh => h hh.symm
      simp [putRoom, h, h2]

@[simp] theorem convertToLocal_id (sr : RoomAssignment) (now : Nat) :
    (convertToLocal sr now).id = sr.id := rfl

@[simp] theorem convertToLocal_isDirty (sr : RoomAssignment) (now : Nat) :
    (convertToLocal sr now).isDirty = false := rfl

theorem conv_sync_eq (sr : RoomAssignment) (now : Nat) :
    { convertToLocal sr now with lastSyncedAt := some now } = convertToLocal sr now := rfl

theorem contribution_nil (now : Nat) (store : RoomStore) (i : Nat) :
    contribution now store i [] = none := by
  unfold contribution
  cases hs : store i with
  | none => rfl
  | some lr => by_cases hd : lr.isDirty <;> simp [hd]

theorem contribution_cons (now : Nat) (store : RoomStore) (i : Nat)
    (sr : RoomAssignment) (rest : List RoomAssignment) :
    contribution now store i (sr :: rest)
      = orD (contribution now store i rest)
          (match store i with
           | none => if sr.id = i then some (convertToLocal sr now) else none
           | some lr =>
             if lr.isDirty then none
             else if sr.id = i then some (convertToLocal sr now) else none) := by
  unfold contribution
  rw [lastWithKey_cons]
  cases hs : store i with
  | none =>
    rw [orD_map]
    by_cases h : sr.id = i <;> simp [h]
  | some lr =>
    by_cases hd : lr.isDirty
    · simp [hd]
    · simp only [hd, if_false, Bool.false_eq_true]
      rw [orD_map]
      congr 1
      by_cases h : sr.id = i <;> simp [h]

theorem lastWith_buildFold (now : Nat) (store : RoomStore) (i : Nat)
    (serverRooms : List RoomAssignment) :
    ∀ acc, lastWithKey (fun r => r.id) i (serverRooms.foldl (buildStep now store) acc)
      = orD (contribution now store i serverRooms) (lastWithKey (fun r => r.id) i acc) := by
  induction serverRooms with
  | nil => intro acc; rw [contribution_nil]; rfl
  | cons sr rest ih =>
    intro acc
    rw [List.foldl_cons, ih, contribution_cons, orD_assoc]
    congr 1
    unfold buildStep
    cases hsr : store sr.id with
    | none =>
      rw [lastWithKey_append_singleton]
      congr 1
      by_cases h : sr.id = i
      · subst h
        rw [hsr]
        simp
      · cases hs : store i with
        | none => simp [h]
        | some lr => by_cases hd : lr.isDirty <;> simp [h, hd]
    | some lr0 =>
      by_cases hd0 : lr0.isDirty
      · simp only [hd0, if_true]
        by_cases h : sr.id = i
        · subst h
          rw [hsr]
          simp [hd0]
        · cases hs : store i with
          | none => simp [h]
          | some lr => by_cases hd : lr.isDirty <;> simp [h, hd]
      · simp only [hd0, if_false, Bool.false_eq_true]
        rw [conv_sync_eq, lastWithKey_append_singleton]
        congr 1
        by_cases h : sr.id = i
        · subst h
          rw [hsr]
          simp [hd0]
        · cases hs : store i with
          | none => simp [h]
          | some lr => by_cases hd : lr.isDirty <;> simp [h, hd]

theorem syncFromServer_apply (serverRooms : List RoomAssignment) (now : Nat)
    (store : RoomStore) (i : Nat) :
    syncFromServer serverRooms now store i
      = orD (contribution now store i serverRooms) (store i) := by
  unfold syncFromServer roomsToSave
  rw [foldl_putRoom_apply, lastWith_buildFold, lastWithKey_nil, orD_none_right]

theorem syncFromServer_dirty (serverRooms : List RoomAssignment) (now : Nat)
    (store : RoomStore) (i : Nat) (lr : RoomAssignmentLocal)
    (h1 : store i = some lr) (h2 : lr.isDirty = true) :
    syncFromServer serverRooms now store i = some lr := by
  rw [syncFromServer_apply]
  unfold contribution
  rw [h1]
  simp [h2]

/-- Claim C7: the pull-phase merge is idempotent.  Applying `syncFromServer` with
the same server snapshot twice in a row (the clock reading `t1` at the first
call, `t2` at the second) ends in exactly the state of applying it once at `t2`;
with a fixed clock this is literally `f (f s) = f s`. -/
theorem pullMerge_idempotent (serverRooms : List RoomAssignment) (t1 t2 : Nat)
    (store : RoomStore) :
    syncFromServer serverRooms t2 (syncFromServer serverRooms t1 store)
      = syncFromServer serverRooms t2 store := by
  funext i
  have h1 := syncFromServer_apply serverRooms t2 (syncFromServer serverRooms t1 store) i
  have h2 := syncFromServer_apply serverRooms t2 store i
  have h0 := syncFromServer_apply serverRooms t1 store i
  rw [h1, h2]
  unfold contribution
  rw [h0]
  unfold contribution
  cases hs : store i with
  | none =>
    cases hL : lastWithKey (fun r => r.id) i serverRooms with
    | none => simp
    | some sr => simp [convertToLocal_isDirty]
  | some lr =>
    by_cases hd : lr.isDirty
    · simp [hd]
    · cases hL : lastWithKey (fun r => r.id) i serverRooms with
      | none => simp [hd]
      | some sr => simp [hd, convertToLocal_isDirty]

/-- Claim C4: a dirty local replica (`updatedAt = T1`) with a strictly older
remote snapshot (`updatedAt = T0 < T1`) survives the pull-phase merge unchanged,
`isDirty` still `true`. -/
theorem pullMerge_dirty_remote_older_keeps_local (serverRooms : List RoomAssignment)
    (now : Nat) (store : RoomStore) (i : Nat) (lr : RoomAssignmentLocal)
    (h1 : store i = some lr) (h2 : lr.isDirty = true)
    (_h3 : ∀ sr ∈ serverRooms, sr.id = i → sr.updatedAt < lr.updatedAt) :
    syncFromServer serverRooms now store i = some lr ∧ lr.isDirty = true :=
  ⟨syncFromServer_dirty serverRooms now store i lr h1 h2, h2⟩

/-- Witness for C4: room 5, local dirty edit at time 10, remote snapshot at
time 3; after the merge the stored replica is the untouched local one. -/
theorem pullMerge_dirty_remote_older_keeps_local_witness :
    syncFromServer [mkServer 5 3 "clean"] 99 c4store 5 = some (mkLocal 5 10 "dirty" true)
      ∧ (mkLocal 5 10 "dirty" true).isDirty = true :=
  pullMerge_dirty_remote_older_keeps_local [mkServer 5 3 "clean"] 99 c4store 5
    (mkLocal 5 10 "dirty" true) rfl rfl (by decide)

/-- Counterexample to claim C1 as stated: room 5 is locally dirty with
`updatedAt = 1`; the remote snapshot for the same id has `updatedAt = 2 ≥ 1`
and a different `status`.  After `syncFromServer` the stored replica is still
the local one — its fields are not the remote snapshot's and `isDirty` is still
`true`: the pull-phase merge never lets the remote side win over a dirty
replica, whatever the timestamps. -/
theorem pullMerge_remote_newer_counterexample :
    (mkLocal 5 1 "dirty" true).isDirty = true
    ∧ (mkLocal 5 1 "dirty" true).updatedAt ≤ (mkServer 5 2 "clean").updatedAt
    ∧ c1store 5 = some (mkLocal 5 1 "dirty" true)
    ∧ syncFromServer [mkServer 5 2 "clean"] 30 c1store 5 = some (mkLocal 5 1 "dirty" true)
    ∧ (mkLocal 5 1 "dirty" true).status ≠ (mkServer 5 2 "clean").status := by
  decide

/-- Claim C1 (amended): when the local replica is dirty, the pull-phase merge
discards the remote snapshot even when `remote.updatedAt ≥ local.updatedAt`:
the stored replica keeps the local fields and `isDirty` stays `true`.  (The
remote-wins-on-newer-timestamp rule lives on the push path, where the server
echo is applied only if not older — see the C9 theorem.) -/
theorem pullMerge_dirty_discards_remote (serverRooms : List RoomAssignment)
    (now : Nat) (store : RoomStore) (i : Nat) (lr : RoomAssignmentLocal)
    (h1 : store i = some lr) (h2 : lr.isDirty = true)
    (_h3 : ∀ sr ∈ serverRooms, sr.id = i → lr.updatedAt ≤ sr.updatedAt) :
    syncFromServer serverRooms now store i = some lr ∧ lr.isDirty = true :=
  ⟨syncFromServer_dirty serverRooms now store i lr h1 h2, h2⟩

/-- Witness for the amended C1: the concrete counterexample store, through the
amended theorem. -/
theorem pullMerge_dirty_discards_remote_witness :
    syncFromServer [mkServer 5 2 "clean"] 30 c1store 5 = some (mkLocal 5 1 "dirty" true)
      ∧ (mkLocal 5 1 "dirty" true).isDirty = true :=
  pullMerge_dirty_discards_remote [mkServer 5 2 "clean"] 30 c1store 5
    (mkLocal 5 1 "dirty" true) rfl rfl (by decide)

@[simp] theorem applyDelta_id (r : RoomAssignmentLocal) (d : UpdateRoomAssignmentData) :
    (applyDelta r d).id = r.id := rfl

/-- Claim C5: `updateRoom`.  With no local replica it fails with the not-found
error and produces no new state; with a replica it returns `Except.ok` of the
new store, the queue with exactly one appended pending `update` item for that
id, and the persisted replica: the delta merged on, `updatedAt = now`,
`isDirty = true`, `version` incremented by one (an absent version counts as 0),
stored under `roomId` with every other key untouched. -/
theorem updateRoom_spec (rooms : RoomStore) (queue : List SyncQueueItem) (roomId : Nat)
    (d : UpdateRoomAssignmentData) (now : Nat) (uuid : String) :
    (rooms roomId = none →
      updateRoom roomId d now uuid rooms queue = Except.error roomNotFound)
    ∧ (∀ cur, rooms roomId = some cur → cur.id = roomId →
        ∃ upd : RoomAssignmentLocal,
          upd = { applyDelta cur d with
                  updatedAt := now, isDirty := true,
                  version := some (cur.version.getD 0 + 1) }
          ∧ updateRoom roomId d now uuid rooms queue
              = Except.ok (putRoom rooms upd,
                  queue ++ [{ id := uuid, roomId := roomId,
                              changeType := ChangeType.update,
                              data := { delta := d, version := upd.version },
                              syncStatus := SyncStatus.pending, retryCount := 0,
                              createdAt := now }],
                  upd)
          ∧ (putRoom rooms upd) roomId = some upd
          ∧ (∀ j, j ≠ roomId → (putRoom rooms upd) j = rooms j)) := by
  constructor
  · intro h
    unfold updateRoom
    rw [h]
  · intro cur h hid
    refine ⟨_, rfl, ?_, ?_, ?_⟩
    · unfold updateRoom
      rw [h]
    · unfold putRoom
      have hupd : ({ applyDelta cur d with
          updatedAt := now, isDirty := true,
          version := some (cur.version.getD 0 + 1) } : RoomAssignmentLocal).id = roomId := by
        rw [show ({ applyDelta cur d with
          updatedAt := now, isDirty := true,
          version := some (cur.version.getD 0 + 1) } : RoomAssignmentLocal).id
            = (applyDelta cur d).id from rfl, applyDelta_id, hid]
      rw [hupd]
      simp
    · intro j hj
      unfold putRoom
      have hupd : ({ applyDelta cur d with
          updatedAt := now, isDirty := true,
          version := some (cur.version.getD 0 + 1) } : RoomAssignmentLocal).id = roomId := by
        rw [show ({ applyDelta cur d with
          updatedAt := now, isDirty := true,
          version := some (cur.version.getD 0 + 1) } : RoomAssignmentLocal).id
            = (applyDelta cur d).id from rfl, applyDelta_id, hid]
      rw [hupd]
      simp [hj]

/-- Witness for C5: editing room 7 of the concrete store persists and returns
the merged replica and appends exactly the expected pending queue item. -/
theorem updateRoom_spec_witness :
    updateRoom 7 d5 12 "u5" c5store [] = Except.ok (putRoom c5store upd5, [item5q], upd5)
    ∧ (putRoom c5store upd5) 7 = some upd5 := by
  obtain ⟨upd, hupd, hok, hget, _⟩ :=
    (updateRoom_spec c5store [] 7 d5 12 "u5").2 (mkLocal 7 3 "clean" false) rfl rfl
  subst hupd
  exact ⟨hok, hget⟩

/-- Claim C6: the re-entrancy guard of `syncPendingItems` (line 551): a trigger
while a pass is marked in flight returns the empty result list and leaves both
stores exactly as they were — nothing is read, written, or queued for later. -/
theorem syncPendingItems_reentrant_noop (svc : BackgroundSyncService.OrchestratorState)
    (rooms : RoomStore) (queue : List SyncQueueItem)
    (responder : SyncQueueItem → Option RoomAssignment) (now : Nat)
    (h : svc.syncInProgress = true) :
    BackgroundSyncService.syncPendingItems svc rooms queue responder now
      = (rooms, queue, []) := by
  unfold BackgroundSyncService.syncPendingItems
  rw [h]
  simp

/-- Witness for C6: a concrete in-flight service state. -/
theorem syncPendingItems_reentrant_noop_witness :
    BackgroundSyncService.syncPendingItems
        { isOnline := true, syncInProgress := true } noRooms [] alwaysFail 0
      = (noRooms, [], []) :=
  syncPendingItems_reentrant_noop
    { isOnline := true, syncInProgress := true } noRooms [] alwaysFail 0 rfl

/-- Claim C8: the request body never carries the bookkeeping fields.  Both strip
functions — `BackgroundSyncService.syncRoomUpdate`'s rest-destructuring and
`SyncService.syncRoomUpdate`'s — drop `isDirty`, `version` and `lastSyncedAt`
from every payload, and on every queue item freshly enqueued by `updateRoom`
the transmitted body is exactly the semantic delta of the edit. -/
theorem pushBody_strips_bookkeeping :
    (∀ p : SyncPayload,
        (BackgroundSyncService.apiData p).isDirty = none
        ∧ (BackgroundSyncService.apiData p).version = none
        ∧ (BackgroundSyncService.apiData p).lastSyncedAt = none
        ∧ (BackgroundSyncService.apiData p).delta = p.delta
        ∧ (SyncService.cleanData p).isDirty = none
        ∧ (SyncService.cleanData p).version = none
        ∧ (SyncService.cleanData p).lastSyncedAt = none
        ∧ (SyncService.cleanData p).delta = p.delta)
    ∧ (∀ (rooms : RoomStore) (queue : List SyncQueueItem) (roomId : Nat)
        (d : UpdateRoomAssignmentData) (now : Nat) (uuid : String)
        (out : RoomStore × List SyncQueueItem × RoomAssignmentLocal),
        updateRoom roomId d now uuid rooms queue = Except.ok out →
        ∀ it ∈ out.2.1, it ∉ queue →
          BackgroundSyncService.apiData it.data = { delta := d }
          ∧ SyncService.cleanData it.data = { delta := d }) := by
  constructor
  · intro p
    exact ⟨rfl, rfl, rfl, rfl, rfl, rfl, rfl, rfl⟩
  · intro rooms queue roomId d now uuid out hok it hmem hnot
    unfold updateRoom at hok
    cases hs : rooms roomId with
    | none =>
      rw [hs] at hok
      exact absurd hok (by simp)
    | some cur =>
      rw [hs] at hok
      have hout := Except.ok.inj hok
      rw [← hout] at hmem
      rcases List.mem_append.mp hmem with hq | hnew
      · exact absurd hq hnot
      · rcases List.mem_singleton.mp hnew with rfl
        exact ⟨rfl, rfl⟩

/-- Witness for C8: the queue item enqueued by the C8 edit is transmitted as the
bare delta by both push implementations. -/
theorem pushBody_strips_bookkeeping_witness :
    BackgroundSyncService.apiData item8.data = { delta := d8 }
    ∧ SyncService.cleanData item8.data = { delta := d8 } :=
  (pushBody_strips_bookkeeping).2 c5store [] 7 d8 11 "u8"
    (putRoom c5store upd8, [item8], upd8) rfl item8 (by simp) (by simp)

@[simp] theorem mergeEcho_id (lr : RoomAssignmentLocal) (echo : RoomAssignment) (now : Nat) :
    (BackgroundSyncService.mergeEcho lr echo now).id = echo.id := rfl

theorem mergeEcho_clear_eq (lr : RoomAssignmentLocal) (echo : RoomAssignment) (now : Nat) :
    { BackgroundSyncService.mergeEcho lr echo now with
      isDirty := false, lastSyncedAt := some now }
      = BackgroundSyncService.mergeEcho lr echo now := rfl

theorem removed_not_mem (queue : List SyncQueueItem) (item1 : SyncQueueItem) (id : String) :
    ∀ x ∈ removeSyncQueueItem (updateSyncQueueItem queue item1) id, x.id ≠ id := by
  intro x hx
  have h := List.mem_filter.mp hx
  simpa using h.2

theorem removed_keeps_others (queue : List SyncQueueItem) (item1 : SyncQueueItem) :
    ∀ x ∈ queue, x.id ≠ item1.id →
      x ∈ removeSyncQueueItem (updateSyncQueueItem queue item1) item1.id := by
  intro x hx hne
  unfold removeSyncQueueItem updateSyncQueueItem
  rw [List.mem_filter]
  constructor
  · exact List.mem_map.mpr ⟨x, hx, by simp [hne]⟩
  · simpa using hne

theorem dispatch_update (item : SyncQueueItem) (rooms : RoomStore)
    (resp : Option RoomAssignment) (now : Nat)
    (h : item.changeType = ChangeType.update) :
    BackgroundSyncService.dispatch item rooms resp now
      = BackgroundSyncService.syncRoomUpdate item rooms resp now := by
  unfold BackgroundSyncService.dispatch
  rw [h]

theorem dispatch_none (item : SyncQueueItem) (rooms : RoomStore) (now : Nat) :
    BackgroundSyncService.dispatch item rooms none now = (rooms, false) := by
  unfold BackgroundSyncService.dispatch
  cases item.changeType <;> rfl

/-- Claim C9: on a successful push of an `update` queue item the item is removed
from the queue (and only it), the attempt is reported successful, and the
replica is overwritten with the record echoed by the server exactly when the
echoed `updatedAt` is not older than the local one; when the echo is older the
replica keeps its fields and only the bookkeeping flags are rewritten. -/
theorem pushSuccess_echo_guard (rooms : RoomStore) (queue : List SyncQueueItem)
    (item : SyncQueueItem) (echo : RoomAssignment) (now : Nat) (lr : RoomAssignmentLocal)
    (hct : item.changeType = ChangeType.update)
    (hlr : rooms item.roomId = some lr)
    (hlid : lr.id = item.roomId)
    (heid : echo.id = item.roomId) :
    (BackgroundSyncService.syncItem item rooms queue (some echo) now).2.2
      = { itemId := item.id, success := true, error := none }
    ∧ (∀ x ∈ (BackgroundSyncService.syncItem item rooms queue (some echo) now).2.1,
        x.id ≠ item.id)
    ∧ (∀ x ∈ queue, x.id ≠ item.id →
        x ∈ (BackgroundSyncService.syncItem item rooms queue (some echo) now).2.1)
    ∧ (lr.updatedAt ≤ echo.updatedAt →
        (BackgroundSyncService.syncItem item rooms queue (some echo) now).1 item.roomId
          = some (BackgroundSyncService.mergeEcho lr echo now))
    ∧ (echo.updatedAt < lr.updatedAt →
        (BackgroundSyncService.syncItem item rooms queue (some echo) now).1 item.roomId
          = some { lr with isDirty := false, lastSyncedAt := some now }) := by
  by_cases hcmp : lr.updatedAt ≤ echo.updatedAt
  · have hstep : BackgroundSyncService.syncRoomUpdate item rooms (some echo) now
        = (putRoom rooms (BackgroundSyncService.mergeEcho lr echo now), true) := by
      unfold BackgroundSyncService.syncRoomUpdate
      rw [hlr]
      simp [hcmp]
    have hsi : BackgroundSyncService.syncItem item rooms queue (some echo) now
        = (putRoom (putRoom rooms (BackgroundSyncService.mergeEcho lr echo now))
             (BackgroundSyncService.mergeEcho lr echo now),
           removeSyncQueueItem
             (updateSyncQueueItem queue
               { item with syncStatus := SyncStatus.syncing, lastAttemptAt := some now })
             item.id,
           { itemId := item.id, success := true, error := none }) := by
      unfold BackgroundSyncService.syncItem
      rw [dispatch_update item rooms (some echo) now hct]
      rw [hstep]
      have hlook : (putRoom rooms (BackgroundSyncService.mergeEcho lr echo now)) item.roomId
          = some (BackgroundSyncService.mergeEcho lr echo now) := by
        unfold putRoom
        simp [heid]
      simp only [hlook, mergeEcho_clear_eq]
      simp
    refine ⟨by rw [hsi], ?_, ?_, ?_, ?_⟩
    · intro x hx
      rw [hsi] at hx
      exact removed_not_mem queue _ item.id x hx
    · intro x hx hne
      rw [hsi]
      exact removed_keeps_others queue
        { item with syncStatus := SyncStatus.syncing, lastAttemptAt := some now } x hx hne
    · intro _
      rw [hsi]
      unfold putRoom
      simp [heid]
    · intro h
      exact absurd hcmp (by omega)
  · have hstep : BackgroundSyncService.syncRoomUpdate item rooms (some echo) now
        = (rooms, true) := by
      unfold BackgroundSyncService.syncRoomUpdate
      rw [hlr]
      simp [hcmp]
    have hsi : BackgroundSyncService.syncItem item rooms queue (some echo) now
        = (putRoom rooms { lr with isDirty := false, lastSyncedAt := some now },
           removeSyncQueueItem
             (updateSyncQueueItem queue
               { item with syncStatus := SyncStatus.syncing, lastAttemptAt := some now })
             item.id,
           { itemId := item.id, success := true, error := none }) := by
      unfold BackgroundSyncService.syncItem
      rw [dispatch_update item rooms (some echo) now hct]
      rw [hstep]
      simp only [hlr]
      simp
    refine ⟨by rw [hsi], ?_, ?_, ?_, ?_⟩
    · intro x hx
      rw [hsi] at hx
      exact removed_not_mem queue _ item.id x hx
    · intro x hx hne
      rw [hsi]
      exact removed_keeps_others queue
        { item with syncStatus := SyncStatus.syncing, lastAttemptAt := some now } x hx hne
    · intro h
      exact absurd h hcmp
    · intro _
      rw [hsi]
      unfold putRoom
      simp [hlid.symm]

/-- Witness for C9: room 9 is dirty at time 20, the echo is older (time 15):
the push succeeds, and the replica keeps its fields with only the bookkeeping
flags rewritten. -/
theorem pushSuccess_echo_guard_witness :
    (BackgroundSyncService.syncItem (mkItem "q9" 9 0) c9store [mkItem "q9" 9 0]
        (some (mkServer 9 15 "dirty")) 40).2.2
      = { itemId := "q9", success := true, error := none }
    ∧ (BackgroundSyncService.syncItem (mkItem "q9" 9 0) c9store [mkItem "q9" 9 0]
        (some (mkServer 9 15 "dirty")) 40).1 9
      = some { mkLocal 9 20 "clean" true with isDirty := false, lastSyncedAt := some 40 } := by
  have h := pushSuccess_echo_guard c9store [mkItem "q9" 9 0] (mkItem "q9" 9 0)
    (mkServer 9 15 "dirty") 40 (mkLocal 9 20 "clean" true) rfl rfl rfl rfl
  exact ⟨h.1, h.2.2.2.2 (by decide)⟩

/-- Claim C10 (implicit): after any successful delivery of an `update` item for
a room that exists locally, the stored replica is rewritten with
`isDirty = false` and `lastSyncedAt = now` unconditionally — in particular when
the echoed `updatedAt` is older than the local one, in which case the replica
keeps every unsynced field value while losing its dirty flag. -/
theorem pushSuccess_clears_dirty_unconditionally (rooms : RoomStore)
    (queue : List SyncQueueItem) (item : SyncQueueItem) (echo : RoomAssignment)
    (now : Nat) (lr : RoomAssignmentLocal)
    (hct : item.changeType = ChangeType.update)
    (hlr : rooms item.roomId = some lr)
    (hlid : lr.id = item.roomId)
    (heid : echo.id = item.roomId) :
    ∃ r', (BackgroundSyncService.syncItem item rooms queue (some echo) now).1 item.roomId
        = some r'
      ∧ r'.isDirty = false
      ∧ r'.lastSyncedAt = some now
      ∧ (echo.updatedAt < lr.updatedAt →
          r'.roomNumber = lr.roomNumber ∧ r'.status = lr.status ∧ r'.priority = lr.priority
          ∧ r'.occupancy = lr.occupancy ∧ r'.checkoutTime = lr.checkoutTime
          ∧ r'.estimatedTime = lr.estimatedTime ∧ r'.notes = lr.notes
          ∧ r'.guestCheckout = lr.guestCheckout ∧ r'.nextCheckin = lr.nextCheckin
          ∧ r'.guestName = lr.guestName ∧ r'.occupancyStatus = lr.occupancyStatus
          ∧ r'.bedType = lr.bedType ∧ r'.serviceStatus = lr.serviceStatus
          ∧ r'.assignedTo = lr.assignedTo ∧ r'.updatedAt = lr.updatedAt) := by
  have h := pushSuccess_echo_guard rooms queue item echo now lr hct hlr hlid heid
  by_cases hcmp : lr.updatedAt ≤ echo.updatedAt
  · refine ⟨BackgroundSyncService.mergeEcho lr echo now, h.2.2.2.1 hcmp, rfl, rfl, ?_⟩
    intro hlt
    exact absurd hcmp (by omega)
  · refine ⟨{ lr with isDirty := false, lastSyncedAt := some now }, h.2.2.2.2 (by omega),
      rfl, rfl, ?_⟩
    intro _
    exact ⟨rfl, rfl, rfl, rfl, rfl, rfl, rfl, rfl, rfl, rfl, rfl, rfl, rfl, rfl, rfl⟩

/-- Witness for C10: the same older-echo scenario as the C9 witness; the dirty
flag is cleared even though the echoed fields were not applied. -/
theorem pushSuccess_clears_dirty_unconditionally_witness :
    ∃ r', (BackgroundSyncService.syncItem (mkItem "q9" 9 0) c9store [mkItem "q9" 9 0]
        (some (mkServer 9 15 "dirty")) 40).1 9 = some r'
      ∧ r'.isDirty = false
      ∧ r'.lastSyncedAt = some 40
      ∧ ((mkServer 9 15 "dirty").updatedAt < (mkLocal 9 20 "clean" true).updatedAt →
          r'.roomNumber = (mkLocal 9 20 "clean" true).roomNumber
          ∧ r'.status = (mkLocal 9 20 "clean" true).status
          ∧ r'.priority = (mkLocal 9 20 "clean" true).priority
          ∧ r'.occupancy = (mkLocal 9 20 "clean" true).occupancy
          ∧ r'.checkoutTime = (mkLocal 9 20 "clean" true).checkoutTime
          ∧ r'.estimatedTime = (mkLocal 9 20 "clean" true).estimatedTime
          ∧ r'.notes = (mkLocal 9 20 "clean" true).notes
          ∧ r'.guestCheckout = (mkLocal 9 20 "clean" true).guestCheckout
          ∧ r'.nextCheckin = (mkLocal 9 20 "clean" true).nextCheckin
          ∧ r'.guestName = (mkLocal 9 20 "clean" true).guestName
          ∧ r'.occupancyStatus = (mkLocal 9 20 "clean" true).occupancyStatus
          ∧ r'.bedType = (mkLocal 9 20 "clean" true).bedType
          ∧ r'.serviceStatus = (mkLocal 9 20 "clean" true).serviceStatus
          ∧ r'.assignedTo = (mkLocal 9 20 "clean" true).assignedTo
          ∧ r'.updatedAt = (mkLocal 9 20 "clean" true).updatedAt) :=
  pushSuccess_clears_dirty_unconditionally c9store [mkItem "q9" 9 0] (mkItem "q9" 9 0)
    (mkServer 9 15 "dirty") 40 (mkLocal 9 20 "clean" true) rfl rfl rfl rfl

theorem syncItem_itemId (item : SyncQueueItem) (rooms : RoomStore)
    (q : List SyncQueueItem) (resp : Option RoomAssignment) (now : Nat) :
    (BackgroundSyncService.syncItem item rooms q resp now).2.2.itemId = item.id := by
  unfold BackgroundSyncService.syncItem
  dsimp only
  split <;> rfl

theorem syncFold_ids (responder : SyncQueueItem → Option RoomAssignment) (now : Nat)
    (P : List SyncQueueItem) :
    ∀ (rooms : RoomStore) (q : List SyncQueueItem) (acc : List SyncResult),
      ((P.foldl (BackgroundSyncService.syncStep responder now) (rooms, q, acc)).2.2).map
          (fun r => r.itemId)
        = acc.map (fun r => r.itemId) ++ P.map (fun y => y.id) := by
  induction P with
  | nil => intro rooms q acc; simp
  | cons y P ih =>
    intro rooms q acc
    rw [List.foldl_cons]
    have hstep : BackgroundSyncService.syncStep responder now (rooms, q, acc) y
        = ((BackgroundSyncService.syncItem y rooms q (responder y) now).1,
           (BackgroundSyncService.syncItem y rooms q (responder y) now).2.1,
           acc ++ [(BackgroundSyncService.syncItem y rooms q (responder y) now).2.2]) := rfl
    rw [hstep, ih]
    simp [syncItem_itemId]

theorem mem_getPendingSyncItems (q : List SyncQueueItem) (x : SyncQueueItem) :
    x ∈ getPendingSyncItems q ↔ x ∈ q ∧ x.syncStatus = SyncStatus.pending := by
  unfold getPendingSyncItems
  rw [(List.perm_insertionSort queueKeyLE _).mem_iff]
  simp [List.mem_filter]

theorem getPending_sorted (q : List SyncQueueItem) :
    ((getPendingSyncItems q).map (fun x => x.id)).Pairwise
      (fun a b => keyLE a.data b.data = true) := by
  have hs : List.Sorted queueKeyLE (getPendingSyncItems q) :=
    List.sorted_insertionSort queueKeyLE _
  exact List.Pairwise.map _ (fun a b h => h) hs

/-- Claim C3 (amended): within one sync pass the orchestrator attempts the
pending items in ascending order of their queue-item primary key `id`
(code-unit order — the order `index('syncStatus').getAll('pending')` returns
them in), not in `createdAt` order: the attempted ids are exactly the ids of the
pending items, arranged so that the key order is non-decreasing. -/
theorem batchPush_order_by_id (rooms : RoomStore) (q : List SyncQueueItem)
    (responder : SyncQueueItem → Option RoomAssignment) (now : Nat) :
    ((BackgroundSyncService.syncPendingItems
        { isOnline := true, syncInProgress := false } rooms q responder now).2.2).map
          (fun r => r.itemId)
      = (getPendingSyncItems q).map (fun y => y.id)
    ∧ ((getPendingSyncItems q).map (fun y => y.id)).Pairwise
        (fun a b => keyLE a.data b.data = true)
    ∧ (∀ x, x ∈ getPendingSyncItems q ↔ x ∈ q ∧ x.syncStatus = SyncStatus.pending) := by
  refine ⟨?_, getPending_sorted q, fun x => mem_getPendingSyncItems q x⟩
  unfold BackgroundSyncService.syncPendingItems
  rw [if_neg (by decide)]
  rw [syncFold_ids]
  simp

/-- Counterexample to claim C3 as stated: two pending items, A created at time 1
with id "b", B created at time 2 with id "a".  A's `createdAt` precedes B's,
yet the sync pass attempts B first: the drain order is the primary-key (uuid)
order of the `syncStatus` index, not creation order. -/
theorem batchPush_not_fifo_counterexample :
    (mkItem "b" 1 1).syncStatus = SyncStatus.pending
    ∧ (mkItem "a" 2 2).syncStatus = SyncStatus.pending
    ∧ (mkItem "b" 1 1).createdAt < (mkItem "a" 2 2).createdAt
    ∧ ((BackgroundSyncService.syncPendingItems
          { isOnline := true, syncInProgress := false }
          noRooms [mkItem "b" 1 1, mkItem "a" 2 2] alwaysFail 0).2.2).map
            (fun r => r.itemId)
        = ["a", "b"] := by
  decide

@[simp] theorem failedAttempt_id (item : SyncQueueItem) (now : Nat) :
    (failedAttempt item now).id = item.id := rfl

theorem updateSyncQueueItem_twice (q : List SyncQueueItem) (a b : SyncQueueItem)
    (h : a.id = b.id) :
    updateSyncQueueItem (updateSyncQueueItem q a) b = updateSyncQueueItem q b := by
  unfold updateSyncQueueItem
  rw [List.map_map]
  refine List.map_congr_left ?_
  intro x _
  by_cases hxa : x.id = a.id
  · simp [Function.comp, hxa, h, h ▸ hxa]
  · have hxb : ¬ x.id = b.id := fun hc => hxa (h ▸ hc)
    simp [Function.comp, hxa, hxb]

theorem syncItem_fail (item : SyncQueueItem) (rooms : RoomStore)
    (q : List SyncQueueItem) (now : Nat) :
    BackgroundSyncService.syncItem item rooms q none now
      = (rooms, updateSyncQueueItem q (failedAttempt item now), failResult item) := by
  unfold BackgroundSyncService.syncItem
  rw [dispatch_none item rooms now]
  rw [if_neg (by simp)]
  show (rooms,
      updateSyncQueueItem
        (updateSyncQueueItem q
          { item with syncStatus := SyncStatus.syncing, lastAttemptAt := some now })
        (failedAttempt item now),
      failResult item)
    = (rooms, updateSyncQueueItem q (failedAttempt item now), failResult item)
  rw [updateSyncQueueItem_twice q
    { item with syncStatus := SyncStatus.syncing, lastAttemptAt := some now }
    (failedAttempt item now) rfl]

theorem syncFold_fail (now : Nat) (P : List SyncQueueItem) :
    ∀ (rooms : RoomStore) (q : List SyncQueueItem) (acc : List SyncResult),
      P.foldl (BackgroundSyncService.syncStep alwaysFail now) (rooms, q, acc)
        = (rooms, P.foldl (fun qq y => updateSyncQueueItem qq (failedAttempt y now)) q,
           acc ++ P.map failResult) := by
  induction P with
  | nil => intro rooms q acc; simp
  | cons y P ih =>
    intro rooms q acc
    rw [List.foldl_cons, List.foldl_cons]
    have hstep : BackgroundSyncService.syncStep alwaysFail now (rooms, q, acc) y
        = (rooms, updateSyncQueueItem q (failedAttempt y now), acc ++ [failResult y]) := by
      unfold BackgroundSyncService.syncStep
      rw [show alwaysFail y = none from rfl, syncItem_fail]
    rw [hstep, ih]
    simp

theorem updFold_map (now : Nat) (P : List SyncQueueItem) :
    ∀ q : List SyncQueueItem,
      P.foldl (fun qq y => updateSyncQueueItem qq (failedAttempt y now)) q
        = q.map (applyFails now P) := by
  induction P with
  | nil =>
    intro q
    rw [List.foldl_nil]
    exact (List.map_id q).symm
  | cons y P ih =>
    intro q
    rw [List.foldl_cons, ih]
    unfold updateSyncQueueItem
    rw [List.map_map]
    rfl

theorem applyFails_of_no_match (now : Nat) (P : List SyncQueueItem) :
    ∀ x : SyncQueueItem, (∀ y ∈ P, y.id ≠ x.id) → applyFails now P x = x := by
  induction P with
  | nil => intro x _; rfl
  | cons y P ih =>
    intro x h
    have hy : y.id ≠ x.id := h y (List.mem_cons_self y P)
    unfold applyFails
    rw [List.foldl_cons, if_neg (fun hc => hy hc.symm)]
    exact ih x (fun z hz => h z (List.mem_cons_of_mem y hz))

theorem applyFails_of_unique (now : Nat) (x : SyncQueueItem) :
    ∀ (s t : List SyncQueueItem),
      (∀ y ∈ s, y.id ≠ x.id) → (∀ y ∈ t, y.id ≠ x.id) →
      applyFails now (s ++ x :: t) x = failedAttempt x now := by
  intro s
  induction s with
  | nil =>
    intro t _ ht
    unfold applyFails
    rw [List.nil_append, List.foldl_cons, if_pos rfl]
    exact applyFails_of_no_match now t (failedAttempt x now)
      (fun y hy => by rw [failedAttempt_id]; exact ht y hy)
  | cons z s ih =>
    intro t hs ht
    have hz : z.id ≠ x.id := hs z (List.mem_cons_self z s)
    unfold applyFails
    rw [List.cons_append, List.foldl_cons, if_neg (fun hc => hz hc.symm)]
    exact ih t (fun y hy => hs y (List.mem_cons_of_mem z hy)) ht

theorem getPending_ids_nodup (q : List SyncQueueItem)
    (h : (q.map (fun x => x.id)).Nodup) :
    ((getPendingSyncItems q).map (fun x => x.id)).Nodup := by
  unfold getPendingSyncItems
  have hperm : List.Perm
      (List.insertionSort queueKeyLE
        (q.filter fun x => x.syncStatus = SyncStatus.pending))
      (q.filter fun x => x.syncStatus = SyncStatus.pending) :=
    List.perm_insertionSort queueKeyLE _
  have h1 : (((q.filter fun x => x.syncStatus = SyncStatus.pending)).map
      (fun x => x.id)).Nodup :=
    ((List.filter_sublist q).map (fun x => x.id)).nodup h
  exact ((hperm.map (fun x => x.id)).nodup_iff).mpr h1

theorem id_unique_in (q : List SyncQueueItem)
    (h : (q.map (fun x => x.id)).Nodup) :
    ∀ x ∈ q, ∀ y ∈ q, x.id = y.id → x = y := by
  intro x hx y hy hxy
  exact List.inj_on_of_nodup_map h hx hy hxy

theorem failingPass_char (rooms : RoomStore) (q : List SyncQueueItem) (now : Nat)
    (h : (q.map (fun x => x.id)).Nodup) :
    failingPass rooms q now
      = (rooms, q.map (passEntry now), (getPendingSyncItems q).map failResult) := by
  unfold failingPass BackgroundSyncService.syncPendingItems
  rw [if_neg (by decide)]
  rw [syncFold_fail, updFold_map]
  rw [List.nil_append]
  have hmap : q.map (applyFails now (getPendingSyncItems q)) = q.map (passEntry now) := by
    refine List.map_congr_left ?_
    intro x hx
    by_cases hp : x.syncStatus = SyncStatus.pending
    · have hxP : x ∈ getPendingSyncItems q := (mem_getPendingSyncItems q x).mpr ⟨hx, hp⟩
      obtain ⟨s, t, hst⟩ := List.append_of_mem hxP
      have hPnd : ((getPendingSyncItems q).map (fun z => z.id)).Nodup :=
        getPending_ids_nodup q h
      rw [hst] at hPnd
      rw [List.map_append, List.map_cons, List.nodup_append, List.nodup_cons] at hPnd
      have hs : ∀ y ∈ s, y.id ≠ x.id := by
        intro y hy hc
        exact hPnd.2.2 (List.mem_map.mpr ⟨y, hy, hc⟩) (List.mem_cons_self x.id _)
      have ht : ∀ y ∈ t, y.id ≠ x.id := by
        intro y hy hc
        exact hPnd.2.1.1 (List.mem_map.mpr ⟨y, hy, hc.symm ▸ rfl⟩)
      rw [hst]
      unfold passEntry
      rw [if_pos hp]
      exact applyFails_of_unique now x s t hs ht
    · have hnP : ∀ y ∈ getPendingSyncItems q, y.id ≠ x.id := by
        intro y hy hc
        have hyq := (mem_getPendingSyncItems q y).mp hy
        have : y = x := id_unique_in q h y hyq.1 x hx hc
        rw [this] at hyq
        exact hp hyq.2
      unfold passEntry
      rw [if_neg hp]
      exact applyFails_of_no_match now _ x hnP
  rw [hmap]

theorem passEntry_id (now : Nat) (x : SyncQueueItem) : (passEntry now x).id = x.id := by
  unfold passEntry
  by_cases hp : x.syncStatus = SyncStatus.pending
  · rw [if_pos hp, failedAttempt_id]
  · rw [if_neg hp]

theorem passIter_id (now : Nat) : ∀ (n : Nat) (x : SyncQueueItem),
    (passIter now n x).id = x.id := by
  intro n
  induction n with
  | zero => intro x; rfl
  | succ n ih =>
    intro x
    show (passEntry now (passIter now n x)).id = x.id
    rw [passEntry_id, ih]

theorem failingPasses_queue (rooms : RoomStore) (q : List SyncQueueItem) (now : Nat)
    (h : (q.map (fun x => x.id)).Nodup) :
    ∀ n, (failingPasses rooms q now n).1 = rooms
      ∧ (failingPasses rooms q now n).2.1 = q.map (passIter now n) := by
  intro n
  induction n with
  | zero =>
    refine ⟨rfl, ?_⟩
    show q = q.map (passIter now 0)
    exact (List.map_id q).symm
  | succ n ih =>
    have hnd : ((q.map (passIter now n)).map (fun x => x.id)).Nodup := by
      rw [List.map_map]
      rw [show ((fun x : SyncQueueItem => x.id) ∘ passIter now n) = (fun x => x.id)
        from funext fun x => passIter_id now n x]
      exact h
    have hchar := failingPass_char rooms (q.map (passIter now n)) now hnd
    constructor
    · show (failingPass (failingPasses rooms q now n).1
          (failingPasses rooms q now n).2.1 now).1 = rooms
      rw [ih.1, ih.2, hchar]
    · show (failingPass (failingPasses rooms q now n).1
          (failingPasses rooms q now n).2.1 now).2.1 = q.map (passIter now (n + 1))
      rw [ih.1, ih.2, hchar]
      show (q.map (passIter now n)).map (passEntry now) = _
      rw [List.map_map]
      rfl

theorem passLog_eq (rooms : RoomStore) (q : List SyncQueueItem) (now : Nat)
    (h : (q.map (fun x => x.id)).Nodup) (k : Nat) :
    passLog rooms q now k
      = (getPendingSyncItems (q.map (passIter now k))).map (fun y => y.id) := by
  unfold passLog
  have hq := failingPasses_queue rooms q now h k
  have hnd : ((q.map (passIter now k)).map (fun x => x.id)).Nodup := by
    rw [List.map_map]
    rw [show ((fun x : SyncQueueItem => x.id) ∘ passIter now k) = (fun x => x.id)
      from funext fun x => passIter_id now k x]
    exact h
  show ((failingPass (failingPasses rooms q now k).1
      (failingPasses rooms q now k).2.1 now).2.2).map (fun r => r.itemId) = _
  rw [hq.1, hq.2, failingPass_char rooms (q.map (passIter now k)) now hnd]
  show ((getPendingSyncItems (q.map (passIter now k))).map failResult).map
      (fun r => r.itemId) = _
  rw [List.map_map]
  rfl

theorem mem_pendingIds_iff (q : List SyncQueueItem)
    (h : (q.map (fun x => x.id)).Nodup) (item : SyncQueueItem) (hmem : item ∈ q)
    (g : SyncQueueItem → SyncQueueItem) (hg : ∀ x, (g x).id = x.id) :
    (item.id ∈ (getPendingSyncItems (q.map g)).map (fun y => y.id))
      ↔ (g item).syncStatus = SyncStatus.pending := by
  constructor
  · intro hin
    obtain ⟨y, hy, hyid⟩ := List.mem_map.mp hin
    have hy2 := (mem_getPendingSyncItems _ y).mp hy
    obtain ⟨x, hxq, hxy⟩ := List.mem_map.mp hy2.1
    have hxid : x.id = item.id := by
      rw [← hg x, hxy]
      exact hyid
    have hxe : x = item := id_unique_in q h x hxq item hmem hxid
    have : y = g item := by rw [← hxy, hxe]
    rw [← this]
    exact hy2.2
  · intro hp
    apply List.mem_map.mpr
    refine ⟨g item, ?_, hg item⟩
    exact (mem_getPendingSyncItems _ _).mpr ⟨List.mem_map.mpr ⟨item, hmem, rfl⟩, hp⟩

theorem passIter_stage (now : Nat) (item : SyncQueueItem)
    (hp : item.syncStatus = SyncStatus.pending) (hrc : item.retryCount = 0) :
    ∀ k, k ≤ 5 →
      (passIter now k item).retryCount = k
      ∧ (passIter now k item).syncStatus
          = (if k < 5 then SyncStatus.pending else SyncStatus.failed) := by
  intro k
  induction k with
  | zero =>
    intro _
    exact ⟨hrc, by simp [passIter, hp]⟩
  | succ k ih =>
    intro hk5
    have hklt : k < 5 := Nat.lt_of_succ_le hk5
    obtain ⟨hrc', hst'⟩ := ih (Nat.le_of_succ_le hk5)
    have hpend : (passIter now k item).syncStatus = SyncStatus.pending := by
      rw [hst', if_pos hklt]
    constructor
    · show (passEntry now (passIter now k item)).retryCount = k + 1
      unfold passEntry
      rw [if_pos hpend]
      show (passIter now k item).retryCount + 1 = k + 1
      rw [hrc']
    · show (passEntry now (passIter now k item)).syncStatus
        = if k + 1 < 5 then SyncStatus.pending else SyncStatus.failed
      unfold passEntry
      rw [if_pos hpend]
      show (if (passIter now k item).retryCount + 1 < BackgroundSyncService.retryDelays.length
          then SyncStatus.pending else SyncStatus.failed)
        = if k + 1 < 5 then SyncStatus.pending else SyncStatus.failed
      rw [hrc']
      rfl

theorem passIter_fixed (now : Nat) (item : SyncQueueItem)
    (hfail : (passIter now 5 item).syncStatus = SyncStatus.failed) :
    ∀ n, 5 ≤ n → passIter now n item = passIter now 5 item := by
  intro n hn
  induction n with
  | zero => omega
  | succ n ih =>
    by_cases h5 : n + 1 = 5
    · rw [h5]
    · have hn' : 5 ≤ n := by omega
      show passEntry now (passIter now n item) = _
      rw [ih hn']
      unfold passEntry
      rw [if_neg (by simp [hfail])]

/-- Claim C2 (amended): under the 5-entry backoff schedule
(`retryDelays = [1s, 5s, 15s, 30s, 60s]`), a pending queue item whose every
delivery attempt fails is attempted in exactly the first 5 failing passes
(pass `k` attempts it iff `k < 5` — never fewer, never more), after which it
stays in the queue permanently with terminal status `failed` and
`retryCount = 5`.  Contrary to the claim as stated, the item is retained in the
queue, not removed. -/
theorem retryExhaustion_terminal_failed (rooms : RoomStore) (q : List SyncQueueItem)
    (now : Nat) (item : SyncQueueItem)
    (hnd : (q.map (fun x => x.id)).Nodup)
    (hmem : item ∈ q)
    (hp : item.syncStatus = SyncStatus.pending)
    (hrc : item.retryCount = 0) :
    (∀ n, 5 ≤ n →
       ∃ e ∈ (failingPasses rooms q now n).2.1,
         e.id = item.id ∧ e.syncStatus = SyncStatus.failed ∧ e.retryCount = 5)
    ∧ (∀ k, (item.id ∈ passLog rooms q now k ↔ k < 5)) := by
  have hst5 : (passIter now 5 item).syncStatus = SyncStatus.failed := by
    have h := (passIter_stage now item hp hrc 5 le_rfl).2
    simpa using h
  have hrc5 : (passIter now 5 item).retryCount = 5 :=
    (passIter_stage now item hp hrc 5 le_rfl).1
  constructor
  · intro n hn
    have hqn := (failingPasses_queue rooms q now hnd n).2
    refine ⟨passIter now n item, ?_, ?_, ?_, ?_⟩
    · rw [hqn]
      exact List.mem_map.mpr ⟨item, hmem, rfl⟩
    · exact passIter_id now n item
    · rw [passIter_fixed now item hst5 n hn]
      exact hst5
    · rw [passIter_fixed now item hst5 n hn]
      exact hrc5
  · intro k
    rw [passLog_eq rooms q now hnd k,
        mem_pendingIds_iff q hnd item hmem (passIter now k) (passIter_id now k)]
    constructor
    · intro hpend
      by_contra hk
      have hk5 : 5 ≤ k := by omega
      rw [passIter_fixed now item hst5 k hk5, hst5] at hpend
      exact SyncStatus.noConfusion hpend
    · intro hk
      have h := (passIter_stage now item hp hrc k (by omega)).2
      rw [h, if_pos hk]

/-- Witness for the amended C2: a single always-failing item; after 6 passes it
is still in the queue as terminal `failed` with `retryCount = 5`, and pass 2
(like every pass before the fifth) attempts it. -/
theorem retryExhaustion_terminal_failed_witness :
    (∃ e ∈ (failingPasses noRooms [mkItem "c2w" 3 0] 7 6).2.1,
       e.id = (mkItem "c2w" 3 0).id ∧ e.syncStatus = SyncStatus.failed
         ∧ e.retryCount = 5)
    ∧ ((mkItem "c2w" 3 0).id ∈ passLog noRooms [mkItem "c2w" 3 0] 7 2 ↔ 2 < 5) := by
  have h := retryExhaustion_terminal_failed noRooms [mkItem "c2w" 3 0] 7 (mkItem "c2w" 3 0)
    (by decide) (by decide) rfl rfl
  exact ⟨h.1 6 (by omega), h.2 2⟩

/-- Counterexample to claim C2 as stated: a queue holding one item on which
every delivery attempt fails.  The first 5 failing passes each attempt it once
(the accumulated attempt log after 5 passes is five entries) and passes 6 and 7
attempt nothing more — yet the queue still has length 1, holding the item in
terminal `failed` state with `retryCount = 5`: after exactly N = 5 failed
attempts the item is retained, not removed from the queue. -/
theorem retryExhaustion_counterexample :
    ((failingPasses noRooms [mkItem "c2" 3 0] 7 5).2.1.length = 1)
    ∧ (∀ e ∈ (failingPasses noRooms [mkItem "c2" 3 0] 7 5).2.1,
        e.id = "c2" ∧ e.syncStatus = SyncStatus.failed ∧ e.retryCount = 5)
    ∧ (failingPasses noRooms [mkItem "c2" 3 0] 7 5).2.2
        = ["c2", "c2", "c2", "c2", "c2"]
    ∧ (failingPasses noRooms [mkItem "c2" 3 0] 7 7).2.2
        = ["c2", "c2", "c2", "c2", "c2"]
    ∧ ((failingPasses noRooms [mkItem "c2" 3 0] 7 7).2.1.length = 1) := by
  decide

end OfflineSync
